import Mathlib

/-!
# Verification of the bit isolator/capsule engine

Shallow embedding of `src/scopes/component/isolator/isolator.main.runtime.ts`
and `src/src/environment/environment.ts` from the PalooDev/bit repository.

Pure data is embedded as Lean structures; the filesystem is embedded as an
explicit association list from paths to contents; the phases of one
`createCapsules` run are embedded as a function producing an explicit effect
trace, so that claims about which phases run and which files change become
statements about the trace.
-/

set_option autoImplicit false

/-! ## Generic association-list helpers (model of JS object field access) -/

/-- First-match lookup in an association list, modelling `obj[key]` on a JS
object (absent key gives `undefined`, embedded as `none`). -/
def getAssoc {β : Type} : List (String × β) → String → Option β
  | [], _ => none
  | (k', v') :: rest, k => if k' == k then some v' else getAssoc rest k

/-- Update-or-append in an association list, modelling `obj[key] = v` on a JS
object: an existing key keeps its position, a new key is appended. -/
def setAssoc {β : Type} : List (String × β) → String → β → List (String × β)
  | [], k, v => [(k, v)]
  | (k', v') :: rest, k, v =>
    if k' == k then (k, v) :: rest else (k', v') :: setAssoc rest k v

/-- Spread-merge of two JS string maps, modelling `\x7b...a, ...b\x7d`:
keys of `a` in order (values overridden by `b` where present), then the keys
of `b` not already in `a`. -/
def mergeDict (a b : List (String × String)) : List (String × String) :=
  (a.map (fun p =>
    match b.find? (fun q => q.1 == p.1) with
    | some q => (p.1, q.2)
    | none => p)) ++
  b.filter (fun q => (a.find? (fun p => p.1 == q.1)).isNone)

/-! ## Data model -/

/-- Component identity: name plus optional version (`BitId` in the source;
`hasVersion()` is embedded as `version.isSome`). -/
structure BitId where
  name : String
  version : Option String
deriving DecidableEq, Repr

/-- The dependency-bearing part of the legacy consumer component
(`component.state._consumer`): `dependencies.getAllIds()`,
`devDependencies.getAllIds()` and `extensions.extensionsBitIds`, each
embedded as the list of ids it yields. -/
structure ConsumerComponent where
  dependencies : List BitId
  devDependencies : List BitId
  extensionDependencies : List BitId
deriving DecidableEq, Repr

/-- A component: identity plus its legacy consumer data. -/
structure Component where
  id : BitId
  consumer : ConsumerComponent
deriving DecidableEq, Repr

/-- A manifest field value: package.json fields touched by the isolator are
either strings (`name`, `version`) or string maps (the dependency sections). -/
inductive JVal where
  | str (s : String)
  | dict (entries : List (String × String))
deriving DecidableEq, Repr

/-- A package manifest (`package.json`), an ordered JS object. -/
def Manifest : Type := List (String × JVal)

instance : DecidableEq Manifest := by
  unfold Manifest
  infer_instance

instance : Repr Manifest := by
  unfold Manifest
  infer_instance

/-- A capsule: one isolated sandbox bound to one component, at a
deterministic directory path. -/
structure Capsule where
  component : Component
  path : String
deriving DecidableEq, Repr

/-- Per-capsule manifest data collected during one run
(`CapsulePackageJsonData` in the source): the capsule, the recomputed
current manifest (set after the write phase) and the previous manifest
snapshotted from disk (`null` on a cache miss, embedded as `none`). -/
structure CapsulePackageJsonData where
  capsule : Capsule
  currentPackageJson : Option Manifest
  previousPackageJson : Option Manifest
deriving DecidableEq, Repr

/-! ## Constants and paths -/

/-- Model of `path.join` restricted to the two-argument uses in the source. -/
def pathJoin (a b : String) : String := a ++ "/" ++ b

/-- Model of the external constant `CACHE_ROOT` from bit-bin constants: an
absolute, platform-chosen cache directory; its exact value is outside this
repository. -/
def CACHE_ROOT : String := "/cache-root"

/-- `CAPSULES_BASE_DIR = path.join(CACHE_ROOT, 'capsules')`. -/
def CAPSULES_BASE_DIR : String := pathJoin CACHE_ROOT "capsules"

/-- `PACKAGE_JSON` from bit-bin constants: the manifest file name. -/
def PACKAGE_JSON : String := "package.json"

/-- `DEPENDENCIES_FIELDS` from bit-bin constants: the dependency-bearing
manifest sections. -/
def DEPENDENCIES_FIELDS : List String :=
  ["dependencies", "devDependencies", "peerDependencies"]

/-- `getCapsulesRootDir(baseDir) = path.join(CAPSULES_BASE_DIR, hash(baseDir))`.
The external object-hash library is passed in as `hashFn`, a pure function. -/
def getCapsulesRootDir (hashFn : String → String) (baseDir : String) : String :=
  pathJoin CAPSULES_BASE_DIR (hashFn baseDir)

/-- Modelled from the spec: the stable per-component directory identifier
used by `Capsule.createFromComponent` (its source file `capsule.ts` is not
under src/); it must include the version to avoid collisions between
versions of the same component. -/
def componentDirName (id : BitId) : String :=
  id.name ++ "@" ++ (match id.version with | some v => v | none => "latest")

/-- Modelled from the spec: `Capsule.createFromComponent` (source file not
under src/); the capsule path is the deterministic join of the isolation
root and the stable per-component identifier, and the directory is created
if missing. -/
def Capsule.createFromComponent (component : Component) (baseDir : String) : Capsule :=
  { component := component, path := pathJoin baseDir (componentDirName component.id) }

/-! ## Manifest computation (`getCurrentPackageJson`, lines 409–445) -/

/-- The placeholder version for not-yet-versioned components
(`const newVersion = '0.0.1-new'`). -/
def newVersion : String := "0.0.1-new"

/-- Model of the external util `componentIdToPackageName` from bit-bin at its
interface: a deterministic package name for a component id. -/
def componentIdToPackageName (id : BitId) : String :=
  "@bit/" ++ id.name

/-- `getBitDependencies`: reduce over the dependency ids, assigning each
package name the dependency's version, or the placeholder when the id has no
version yet. -/
def getBitDependencies (deps : List BitId) : List (String × String) :=
  deps.foldl (fun acc depId =>
    let packageDependency := match depId.version with
      | some v => v
      | none => newVersion
    setAssoc acc (componentIdToPackageName depId) packageDependency) []

/-- The string-map value of a manifest field, empty when the field is absent
or not a map. -/
def getDictField (m : Manifest) (f : String) : List (String × String) :=
  match getAssoc m f with
  | some (JVal.dict d) => d
  | _ => []

/-- The on-disk manifest store: maps a file path to the parsed manifest it
holds (files that are not manifests are not relevant to the pipeline). -/
def ManifestDisk : Type := List (String × Manifest)

instance : DecidableEq ManifestDisk := by
  unfold ManifestDisk
  infer_instance

instance : Repr ManifestDisk := by
  unfold ManifestDisk
  infer_instance

/-- Read a manifest file (`none` when the file does not exist). -/
def readManifest (disk : ManifestDisk) (p : String) : Option Manifest :=
  getAssoc disk p

/-- `getCurrentPackageJson(capsule)`: load the manifest the write phase
left in the capsule (`PackageJsonFile.loadFromCapsuleSync`), merge the
component's own bit dependencies into `dependencies`, its dev and extension
dependencies into `devDependencies` (`addDependencies` /
`addDevDependencies` of the external PackageJsonFile, which spread-merge
into the respective field), and set `version` to the component's version or
the placeholder. -/
def getCurrentPackageJson (capsule : Capsule) (disk : ManifestDisk) : Manifest :=
  let consumerComponent := capsule.component.consumer
  let bitDependencies := getBitDependencies consumerComponent.dependencies
  let bitDevDependencies := getBitDependencies consumerComponent.devDependencies
  let bitExtensionDependencies := getBitDependencies consumerComponent.extensionDependencies
  let loaded := (readManifest disk (pathJoin capsule.path PACKAGE_JSON)).getD []
  let withDeps := setAssoc loaded "dependencies"
    (JVal.dict (mergeDict (getDictField loaded "dependencies") bitDependencies))
  let withDevDeps := setAssoc withDeps "devDependencies"
    (JVal.dict (mergeDict (getDictField withDeps "devDependencies")
      (mergeDict bitDevDependencies bitExtensionDependencies)))
  setAssoc withDevDeps "version"
    (JVal.str (match capsule.component.id.version with
      | some v => v
      | none => newVersion))

/-! ## Manifest diff (`wereDependenciesInPackageJsonChanged`, lines 374–379) -/

/-- `wereDependenciesInPackageJsonChanged`: no previous manifest means
changed; otherwise changed iff some dependency-bearing field differs
(ramda `equals` deep equality, embedded as decidable equality on the
modelled value universe). At this point of the run `currentPackageJson` is
always set; the source asserts this with a ts-ignore, embedded as `.getD []`. -/
def wereDependenciesInPackageJsonChanged (d : CapsulePackageJsonData) : Bool :=
  match d.previousPackageJson with
  | none => true
  | some previous =>
    DEPENDENCIES_FIELDS.any (fun field =>
      !(getAssoc previous field == getAssoc (d.currentPackageJson.getD []) field))

/-- `getCapsulesWithModifiedPackageJson` (lines 270–280): the capsules whose
manifest diff reported a change. -/
def getCapsulesWithModifiedPackageJson
    (capsulesWithPackagesData : List CapsulePackageJsonData) : List Capsule :=
  (capsulesWithPackagesData.filter
    (fun d => wereDependenciesInPackageJsonChanged d)).map (fun d => d.capsule)

/-! ## Manifest snapshot -/

/-- The raw on-disk file store used by the byte-level functions: maps a file
path to its raw string content. -/
def FileDisk : Type := List (String × String)

instance : DecidableEq FileDisk := by
  unfold FileDisk
  infer_instance

/-- `fs.readFile` at the byte level: `none` when the file does not exist. -/
def readRaw (disk : FileDisk) (p : String) : Option String :=
  getAssoc disk p

/-- `getCapsulesPreviousPackageJson` (lines 381–398): for each capsule,
best-effort read and parse of its existing manifest file; the try/catch
turns a missing file or a `JSON.parse` failure into a `null` previous
manifest. `parseFn` embeds `JSON.parse`, `none` being a thrown parse error. -/
def getCapsulesPreviousPackageJson (disk : FileDisk)
    (parseFn : String → Option Manifest) (capsules : List Capsule) :
    List CapsulePackageJsonData :=
  capsules.map (fun capsule =>
    let packageJsonPath := pathJoin capsule.path PACKAGE_JSON
    let previousPackageJson := (readRaw disk packageJsonPath).bind parseFn
    { capsule := capsule
      currentPackageJson := none
      previousPackageJson := previousPackageJson })

/-- The same snapshot at the manifest level of the pipeline model, where the
disk already stores parsed manifests. -/
def snapshotPreviousManifests (disk : ManifestDisk) (capsules : List Capsule) :
    List CapsulePackageJsonData :=
  capsules.map (fun capsule =>
    { capsule := capsule
      currentPackageJson := none
      previousPackageJson := readManifest disk (pathJoin capsule.path PACKAGE_JSON) })

/-! ## Effects of one `createCapsules` run -/

/-- One observable filesystem/collaborator effect of a run, in order. -/
inductive Effect where
  /-- `fs.emptyDir(capsulesDir)` for `emptyRootDir`. -/
  | emptyRootDirE (dir : String)
  /-- capsule directory creation by `Capsule.createFromComponent`. -/
  | createCapsuleDir (p : String)
  /-- the write phase persisting one component into its capsule, including
  the manifest the external ComponentWriter leaves at the capsule root. -/
  | writeComponent (id : BitId) (p : String) (m : Manifest)
  /-- the single shared `installer.install` call at the isolation root. -/
  | installE (root : String)
  /-- the external `linker.link` call at the isolation root. -/
  | linkerLink (root : String)
  /-- `symlinkOnCapsuleRoot` over the whole capsule list. -/
  | capsuleRootLink (root : String)
  /-- `symlinkDependenciesToCapsules` over the listed capsule paths. -/
  | symlinkDeps (capsulePaths : List String)
  /-- `symlinkBitBinToCapsules` over the listed capsule paths. -/
  | symlinkBitBin (capsulePaths : List String)
  /-- a direct `capsule.fs.writeFileSync(PACKAGE_JSON, ...)`. -/
  | writeManifest (p : String) (m : Manifest)
deriving DecidableEq, Repr

/-- Remove every file strictly under a directory (`fs.emptyDir`). -/
def removeUnder (disk : ManifestDisk) (dir : String) : ManifestDisk :=
  disk.filter (fun p => !((dir ++ "/").data.isPrefixOf p.1.data))

/-- Manifest-content semantics of one effect: only the wipe and the two
manifest-writing effects change manifest files; directory creation,
install and the symlink passes do not touch manifest contents. -/
def applyEffect (disk : ManifestDisk) : Effect → ManifestDisk
  | Effect.emptyRootDirE dir => removeUnder disk dir
  | Effect.writeComponent _ p m => setAssoc disk p m
  | Effect.writeManifest p m => setAssoc disk p m
  | _ => disk

/-- Fold a trace of effects over the disk. -/
def applyEffects (disk : ManifestDisk) (effects : List Effect) : ManifestDisk :=
  effects.foldl applyEffect disk

/-! ## Write phase (`writeComponentsInCapsules`, lines 282–295) -/

/-- `writeComponentsInCapsules`: for each component, look its capsule up by
component id; a component with no capsule is skipped (`if (!capsule) return`),
otherwise the component's files — among them a manifest produced by the
external ComponentWriter, passed in as `writtenManifest` — are persisted
into the capsule. -/
def writeComponentsEffects (components : List Component) (capsuleList : List Capsule)
    (writtenManifest : Component → Manifest) : List Effect :=
  components.filterMap (fun component =>
    (capsuleList.find? (fun capsule => capsule.component.id == component.id)).map
      (fun capsule =>
        Effect.writeComponent component.id (pathJoin capsule.path PACKAGE_JSON)
          (writtenManifest component)))

/-! ## `updateWithCurrentPackageJsonData` (lines 400–407) -/

/-- Mutate the first entry whose capsule holds the given component id,
setting its current manifest (the `find` + assignment in the source). -/
def updateFirst (data : List CapsulePackageJsonData) (cid : BitId) (pj : Manifest) :
    List CapsulePackageJsonData :=
  match data with
  | [] => []
  | d :: rest =>
    if d.capsule.component.id == cid then
      { d with currentPackageJson := some pj } :: rest
    else
      d :: updateFirst rest cid pj

/-- `updateWithCurrentPackageJsonData`: for each capsule, recompute the
current manifest from the post-write disk and store it on the matching
snapshot entry. (The `throw` on a missing entry is unreachable in the
pipeline, where both lists come from the same capsule list.) -/
def updateWithCurrentPackageJsonData (data : List CapsulePackageJsonData)
    (capsules : List Capsule) (disk : ManifestDisk) : List CapsulePackageJsonData :=
  capsules.foldl (fun acc capsule =>
    updateFirst acc capsule.component.id (getCurrentPackageJson capsule disk)) data

/-! ## Link phase (`linkInCapsules`, lines 246–268) -/

/-- The effects of `linkInCapsules`, in source order: the external linker
and the capsule-root symlink run over the whole list; the dependency and
bit-bin symlink passes run only over the capsules whose manifest diff
reported a change. -/
def linkEffects (capsulesDir : String)
    (capsulesWithPackagesData : List CapsulePackageJsonData) : List Effect :=
  let modifiedPaths :=
    (getCapsulesWithModifiedPackageJson capsulesWithPackagesData).map (fun c => c.path)
  [Effect.linkerLink capsulesDir,
   Effect.capsuleRootLink capsulesDir,
   Effect.symlinkDeps modifiedPaths,
   Effect.symlinkBitBin modifiedPaths]

/-- A symlink table: link path to target. -/
def Links : Type := List (String × String)

instance : DecidableEq Links := by
  unfold Links
  infer_instance

/-- Modelled from the spec: establishing one symlink inside a capsule
(the per-capsule relink primitive of `symlinkDependenciesToCapsules`, whose
source file is not under src/); it sets the link to the target, always
succeeds, and relinking an already-correct link is a no-op. -/
def setLink (links : Links) (src tgt : String) : Links :=
  setAssoc links src tgt

/-- Look a symlink up in the table. -/
def lookupLink (links : Links) (src : String) : Option String :=
  getAssoc links src

/-! ## Options and the `createCapsules` pipeline (lines 169–213) -/

/-- The options consumed by the pipeline (`IsolateComponentsOptions` merged
with `DEFAULT_ISOLATE_INSTALL_OPTIONS`): `installPackages` defaults to true,
the boolean flags default to false/absent. -/
structure IsolateComponentsOptions where
  baseDir : String
  emptyRootDir : Bool := false
  skipIfExists : Bool := false
  getExistingAsIs : Bool := false
  installPackages : Bool := true
  seedersOnly : Bool := false
deriving DecidableEq, Repr

/-- The isolation root of a run: `getCapsulesRootDir(opts.baseDir)`. -/
def pipelineCapsulesDir (hashFn : String → String)
    (opts : IsolateComponentsOptions) : String :=
  getCapsulesRootDir hashFn opts.baseDir

/-- The effects of the optional `emptyRootDir` wipe, which the source runs
before anything else in `createCapsules`. -/
def pipelinePreEffects (hashFn : String → String)
    (opts : IsolateComponentsOptions) : List Effect :=
  if opts.emptyRootDir then [Effect.emptyRootDirE (pipelineCapsulesDir hashFn opts)] else []

/-- The disk as the capsule-creation step sees it: after the optional wipe. -/
def pipelineDisk1 (hashFn : String → String) (opts : IsolateComponentsOptions)
    (disk0 : ManifestDisk) : ManifestDisk :=
  applyEffects disk0 (pipelinePreEffects hashFn opts)

/-- `createCapsulesFromComponents`: one capsule per component, in order. -/
def pipelineCapsules (hashFn : String → String) (opts : IsolateComponentsOptions)
    (components : List Component) : List Capsule :=
  components.map (fun c => Capsule.createFromComponent c (pipelineCapsulesDir hashFn opts))

/-- The capsules whose directory already contains a manifest file
(`capsule.fs.existsSync('package.json')`), for `skipIfExists`. -/
def pipelineExistingCapsules (hashFn : String → String)
    (opts : IsolateComponentsOptions) (components : List Component)
    (disk0 : ManifestDisk) : List Capsule :=
  (pipelineCapsules hashFn opts components).filter (fun capsule =>
    (readManifest (pipelineDisk1 hashFn opts disk0)
      (pathJoin capsule.path PACKAGE_JSON)).isSome)

/-- The disk after the write phase. -/
def pipelineDisk2 (hashFn : String → String) (opts : IsolateComponentsOptions)
    (components : List Component) (disk0 : ManifestDisk)
    (writtenManifest : Component → Manifest) : ManifestDisk :=
  applyEffects (pipelineDisk1 hashFn opts disk0)
    (writeComponentsEffects components (pipelineCapsules hashFn opts components)
      writtenManifest)

/-- The per-capsule manifest data of a full (non-short-circuited) run: the
snapshot taken before the write phase, updated with the current manifests
recomputed from the post-write disk. -/
def pipelineData (hashFn : String → String) (opts : IsolateComponentsOptions)
    (components : List Component) (disk0 : ManifestDisk)
    (writtenManifest : Component → Manifest) : List CapsulePackageJsonData :=
  updateWithCurrentPackageJsonData
    (snapshotPreviousManifests (pipelineDisk1 hashFn opts disk0)
      (pipelineCapsules hashFn opts components))
    (pipelineCapsules hashFn opts components)
    (pipelineDisk2 hashFn opts components disk0 writtenManifest)

/-- `createCapsules` (lines 169–213) as a trace semantics: the returned
capsule list together with the ordered effects the run performs. The three
short-circuits follow the source: `getExistingAsIs` returns right after
directory creation; `skipIfExists` returns the existing capsules when every
capsule already has a manifest file; otherwise the run snapshots, writes,
recomputes manifests, installs and links when `installPackages` is set, and
finally rewrites the manifest of every snapshot entry. -/
def createCapsulesTrace (hashFn : String → String)
    (opts : IsolateComponentsOptions) (components : List Component)
    (disk0 : ManifestDisk) (writtenManifest : Component → Manifest) :
    List Capsule × List Effect :=
  let capsulesDir := pipelineCapsulesDir hashFn opts
  let preEffects := pipelinePreEffects hashFn opts
  let capsules := pipelineCapsules hashFn opts components
  let mkEffects := capsules.map (fun c => Effect.createCapsuleDir c.path)
  if opts.getExistingAsIs then
    (capsules, preEffects ++ mkEffects)
  else
    let existingCapsules := pipelineExistingCapsules hashFn opts components disk0
    if opts.skipIfExists && existingCapsules.length == capsules.length then
      (existingCapsules, preEffects ++ mkEffects)
    else
      let writeEffects := writeComponentsEffects components capsules writtenManifest
      let data := pipelineData hashFn opts components disk0 writtenManifest
      let installLinkEffects :=
        if opts.installPackages then
          Effect.installE capsulesDir :: linkEffects capsulesDir data
        else []
      let rewriteEffects := data.map (fun d =>
        Effect.writeManifest (pathJoin d.capsule.path PACKAGE_JSON)
          (d.currentPackageJson.getD []))
      (capsules, preEffects ++ mkEffects ++ writeEffects ++ installLinkEffects ++ rewriteEffects)

/-! ## Graph resolution (`createGraph`, lines 147–160) -/

/-- `createGraph`: ask the graph builder for the transitive successor
subgraph of the seeders (embedded as `getSubgraphNodes`, yielding the node
attributes in graph order), map every node through the host existence check
(`hasId`), keeping it when the host recognizes it and `undefined` otherwise,
then `compact` the results. -/
def createGraph (getSubgraphNodes : List BitId → List Component)
    (hasId : BitId → Bool) (seeders : List BitId) : List Component :=
  let compsAndDeps := getSubgraphNodes seeders
  (compsAndDeps.map (fun c => if hasId c.id then some c else none)).filterMap id

/-! ## `list` (lines 333–348) -/

/-- A filesystem error as the catch clause sees it: a value with a `code`. -/
structure FsError where
  code : String
deriving DecidableEq, Repr

/-- The result of `list`. -/
structure ListResults where
  workspace : String
  capsules : List String
deriving DecidableEq, Repr

namespace IsolatorMain

/-- `IsolatorMain.list`: read the isolation root directory, mapping each
entry to its full path; a thrown `ENOENT` yields the workspace with an empty
capsule list, any other error is rethrown. `readdirFn` embeds `fs.readdir`. -/
def list (readdirFn : String → Except FsError (List String))
    (hashFn : String → String) (workspacePath : String) :
    Except FsError ListResults :=
  let workspaceCapsuleFolder := getCapsulesRootDir hashFn workspacePath
  match readdirFn workspaceCapsuleFolder with
  | Except.ok capsules =>
    Except.ok
      { workspace := workspacePath
        capsules := capsules.map (fun c => pathJoin workspaceCapsuleFolder c) }
  | Except.error e =>
    if e.code == "ENOENT" then
      Except.ok { workspace := workspacePath, capsules := [] }
    else
      Except.error e

end IsolatorMain

/-! ## Environment sentinel (`src/src/environment/environment.ts`) -/

/-- `ENV_IS_INSTALLED_FILENAME = '.bit_env_has_installed'`. -/
def ENV_IS_INSTALLED_FILENAME : String := ".bit_env_has_installed"

namespace Environment

/-- `Environment.markEnvironmentAsInstalled(dir)`: write the empty sentinel
file at `path.join(dir, ENV_IS_INSTALLED_FILENAME)` (`outputFile`). -/
def markEnvironmentAsInstalled (disk : FileDisk) (dir : String) : FileDisk :=
  setAssoc disk (pathJoin dir ENV_IS_INSTALLED_FILENAME) ""

/-- `Environment.isEnvironmentInstalled(dir)`: `fs.existsSync` on exactly the
sentinel file path. -/
def isEnvironmentInstalled (disk : FileDisk) (dir : String) : Bool :=
  (getAssoc disk (pathJoin dir ENV_IS_INSTALLED_FILENAME)).isSome

end Environment

/-! ## Concrete instances used by witnesses and counterexamples -/

/-- A concrete versioned component id. -/
def exId : BitId := { name := "a", version := some "1.0.0" }

/-- A concrete component with no dependencies. -/
def exComp : Component :=
  { id := exId
    consumer := { dependencies := [], devDependencies := [], extensionDependencies := [] } }

/-- A second id, absent from the mock host in the graph-filtering scenario. -/
def exIdB : BitId := { name := "b", version := some "2.0.0" }

/-- The component for `exIdB`. -/
def exCompB : Component :=
  { id := exIdB
    consumer := { dependencies := [], devDependencies := [], extensionDependencies := [] } }

/-- Default options over base directory `ws`. -/
def exOpts : IsolateComponentsOptions := { baseDir := "ws" }

/-- The capsule directory of `exComp` under `exOpts` with the identity hash. -/
def exCapsulePath : String := "/cache-root/capsules/ws/a@1.0.0"

/-- The manifest path inside that capsule. -/
def exManifestPath : String := pathJoin exCapsulePath PACKAGE_JSON

/-- A previous manifest whose dependency sections match the recomputed
current manifest of `exComp`. -/
def exPrev : Manifest := [("dependencies", JVal.dict []), ("devDependencies", JVal.dict [])]

/-- A disk holding `exPrev` at the capsule's manifest path. -/
def exDisk : ManifestDisk := [(exManifestPath, exPrev)]

/-- The manifest the (external) write phase leaves in the capsule. -/
def exWritten : Component → Manifest := fun _ => [("name", JVal.str "a")]

/-- The current manifest `getCurrentPackageJson` computes for `exComp` after
the write phase. -/
def exCurrent : Manifest :=
  [("name", JVal.str "a"), ("dependencies", JVal.dict []),
   ("devDependencies", JVal.dict []), ("version", JVal.str "1.0.0")]

/-- Options with both `getExistingAsIs` and `emptyRootDir` set. -/
def exOptsBoth : IsolateComponentsOptions :=
  { baseDir := "ws", emptyRootDir := true, getExistingAsIs := true }

/-- Options with only `getExistingAsIs` set. -/
def exOptsAsIs : IsolateComponentsOptions :=
  { baseDir := "ws", getExistingAsIs := true }

/-- The capsule of `exComp` under `exOpts` with the identity hash. -/
def exCapsule : Capsule := { component := exComp, path := exCapsulePath }

/-- Recognizer for the final-rewrite effects. -/
def isWriteManifest : Effect → Bool :=
  fun e => match e with
  | Effect.writeManifest _ _ => true
  | _ => false

/-- Extract the component id of a write-phase effect. -/
def effectWriteId : Effect → Option BitId :=
  fun e => match e with
  | Effect.writeComponent i _ _ => some i
  | _ => none

/-! ## Helper lemmas -/

theorem getAssoc_setAssoc_self {β : Type} (l : List (String × β)) (k : String) (v : β) :
    getAssoc (setAssoc l k v) k = some v := by
  induction l with
  | nil => simp [setAssoc, getAssoc]
  | cons p rest ih =>
    obtain ⟨k', v'⟩ := p
    by_cases h : k' == k
    · simp [setAssoc, h, getAssoc]
    · simp only [setAssoc, h, if_false, Bool.false_eq_true, ite_false, getAssoc]
      exact ih

theorem setAssoc_eq_of_getAssoc {β : Type} (l : List (String × β)) (k : String) (v : β)
    (h : getAssoc l k = some v) : setAssoc l k v = l := by
  induction l with
  | nil => simp [getAssoc] at h
  | cons p rest ih =>
    obtain ⟨k', v'⟩ := p
    by_cases hk : k' == k
    · have hk' : k' = k := by simpa using hk
      simp only [getAssoc, hk, if_true] at h
      obtain rfl : v' = v := by simpa using h
      simp [setAssoc, hk, hk']
    · simp only [getAssoc, hk, Bool.false_eq_true, ite_false] at h
      simp [setAssoc, hk, ih h]

theorem applyEffects_createDirs (capsules : List Capsule) (disk : ManifestDisk) :
    applyEffects disk (capsules.map (fun c => Effect.createCapsuleDir c.path)) = disk := by
  induction capsules generalizing disk with
  | nil => rfl
  | cons c rest ih => simpa [applyEffects, applyEffect] using ih disk

theorem filter_isWriteManifest_preEffects (hashFn : String → String)
    (opts : IsolateComponentsOptions) :
    (pipelinePreEffects hashFn opts).filter isWriteManifest = [] := by
  by_cases h : opts.emptyRootDir <;> simp [pipelinePreEffects, h, isWriteManifest]

theorem filter_isWriteManifest_createDirs (capsules : List Capsule) :
    ((capsules.map (fun c => Effect.createCapsuleDir c.path)).filter isWriteManifest) = [] := by
  induction capsules with
  | nil => rfl
  | cons c rest ih => simp [isWriteManifest, ih]

theorem filter_isWriteManifest_writeEffects (components : List Component)
    (capsuleList : List Capsule) (writtenManifest : Component → Manifest) :
    ((writeComponentsEffects components capsuleList writtenManifest).filter
      isWriteManifest) = [] := by
  rw [List.filter_eq_nil_iff]
  intro e he
  obtain ⟨comp, _, hcomp⟩ := List.mem_filterMap.mp he
  obtain ⟨cap, _, rfl⟩ := Option.map_eq_some'.mp hcomp
  simp [isWriteManifest]

theorem filter_isWriteManifest_linkEffects (capsulesDir : String)
    (data : List CapsulePackageJsonData) :
    ((linkEffects capsulesDir data).filter isWriteManifest) = [] := by
  simp [linkEffects, isWriteManifest]

theorem filter_isWriteManifest_rewrites (data : List CapsulePackageJsonData) :
    ((data.map (fun d =>
        Effect.writeManifest (pathJoin d.capsule.path PACKAGE_JSON)
          (d.currentPackageJson.getD []))).filter isWriteManifest)
      = data.map (fun d =>
          Effect.writeManifest (pathJoin d.capsule.path PACKAGE_JSON)
            (d.currentPackageJson.getD [])) := by
  rw [List.filter_eq_self]
  intro e he
  obtain ⟨d, _, rfl⟩ := List.mem_map.mp he
  simp [isWriteManifest]

theorem filter_isWriteManifest_installLink (b : Bool) (capsulesDir : String)
    (data : List CapsulePackageJsonData) :
    ((if b then Effect.installE capsulesDir :: linkEffects capsulesDir data
      else []).filter isWriteManifest) = [] := by
  cases b <;> simp [linkEffects, isWriteManifest]

theorem createCapsulesTrace_full (hashFn : String → String)
    (opts : IsolateComponentsOptions) (components : List Component)
    (disk0 : ManifestDisk) (writtenManifest : Component → Manifest)
    (h1 : opts.getExistingAsIs = false)
    (h2 : (opts.skipIfExists &&
        (pipelineExistingCapsules hashFn opts components disk0).length
          == (pipelineCapsules hashFn opts components).length) = false) :
    (createCapsulesTrace hashFn opts components disk0 writtenManifest).2
      = pipelinePreEffects hashFn opts
        ++ (pipelineCapsules hashFn opts components).map
            (fun c => Effect.createCapsuleDir c.path)
        ++ writeComponentsEffects components (pipelineCapsules hashFn opts components)
            writtenManifest
        ++ (if opts.installPackages then
              Effect.installE (pipelineCapsulesDir hashFn opts)
                :: linkEffects (pipelineCapsulesDir hashFn opts)
                    (pipelineData hashFn opts components disk0 writtenManifest)
            else [])
        ++ (pipelineData hashFn opts components disk0 writtenManifest).map (fun d =>
            Effect.writeManifest (pathJoin d.capsule.path PACKAGE_JSON)
              (d.currentPackageJson.getD [])) := by
  simp [createCapsulesTrace, h1, h2, List.append_assoc]

/-! ## Claim theorems -/

/-- C3: with `seedersOnly = false`, graph resolution returns exactly the
nodes of the transitive successor subgraph that the host recognizes,
dropping unrecognized nodes while preserving the relative order of the
survivors; in particular with seeds A, a graph returning A and B, and a
host that reports B absent, the result is exactly A. -/
theorem createGraph_filters_by_host :
    (∀ (getSubgraphNodes : List BitId → List Component) (hasId : BitId → Bool)
        (seeders : List BitId),
      createGraph getSubgraphNodes hasId seeders
        = (getSubgraphNodes seeders).filter (fun c => hasId c.id))
    ∧ createGraph (fun _ => [exComp, exCompB]) (fun i => i == exId) [exId] = [exComp] := by
  constructor
  · intro getSubgraphNodes hasId seeders
    unfold createGraph
    generalize getSubgraphNodes seeders = l
    induction l with
    | nil => rfl
    | cons c rest ih =>
      by_cases h : hasId c.id
      · simp only [List.map_cons, List.filterMap_cons, id_eq, h, if_true,
          List.filter_cons_of_pos, ih]
      · simp only [List.map_cons, List.filterMap_cons, id_eq, h, Bool.false_eq_true,
          if_false, ite_false]
        rw [List.filter_cons_of_neg (by simp [h]), ih]
  · decide

/-- C4: the manifest diff returns changed = true iff the previous manifest
is absent or at least one dependency-bearing field differs; all other
manifest fields are ignored. -/
theorem wereDependenciesInPackageJsonChanged_iff (d : CapsulePackageJsonData) :
    wereDependenciesInPackageJsonChanged d = true ↔
      (d.previousPackageJson = none ∨
       ∃ f ∈ DEPENDENCIES_FIELDS, ∃ prev, d.previousPackageJson = some prev ∧
         getAssoc prev f ≠ getAssoc (d.currentPackageJson.getD []) f) := by
  cases h : d.previousPackageJson with
  | none => simp [wereDependenciesInPackageJsonChanged, h]
  | some prev =>
    simp only [wereDependenciesInPackageJsonChanged, h]
    rw [List.any_eq_true]
    constructor
    · rintro ⟨f, hf, hne⟩
      refine Or.inr ⟨f, hf, prev, rfl, ?_⟩
      simpa using hne
    · rintro (hnone | ⟨f, hf, prev', hp, hne⟩)
      · exact absurd hnone (by simp)
      · obtain rfl : prev = prev' := Option.some.inj hp
        exact ⟨f, hf, by simpa using hne⟩

/-- C5: snapshotting the previous manifests never fails: the result has
exactly one entry per input capsule (in order), and a missing manifest file
or a parse failure yields a null previous manifest. -/
theorem getCapsulesPreviousPackageJson_total (disk : FileDisk)
    (parseFn : String → Option Manifest) (capsules : List Capsule) :
    ((getCapsulesPreviousPackageJson disk parseFn capsules).map (fun d => d.capsule)
        = capsules)
    ∧ (getCapsulesPreviousPackageJson disk parseFn capsules).length = capsules.length
    ∧ ∀ d ∈ getCapsulesPreviousPackageJson disk parseFn capsules,
        (readRaw disk (pathJoin d.capsule.path PACKAGE_JSON) = none →
          d.previousPackageJson = none)
        ∧ (∀ raw, readRaw disk (pathJoin d.capsule.path PACKAGE_JSON) = some raw →
            parseFn raw = none → d.previousPackageJson = none) := by
  refine ⟨?_, ?_, ?_⟩
  · induction capsules with
    | nil => rfl
    | cons c rest ih =>
      simp only [getCapsulesPreviousPackageJson, List.map_cons, List.map_map] at ih ⊢
      exact congrArg (List.cons c) ih
  · simp [getCapsulesPreviousPackageJson]
  · intro d hd
    simp only [getCapsulesPreviousPackageJson] at hd
    obtain ⟨capsule, -, rfl⟩ := List.mem_map.mp hd
    constructor
    · intro h
      simp [h]
    · intro raw hr hp
      simp [hr, hp]

/-- C6: `list` returns the per-capsule full paths under the computed
isolation root; a not-found (`ENOENT`) error yields the workspace path with
an empty capsule list, and any other filesystem error propagates. -/
theorem list_spec (readdirFn : String → Except FsError (List String))
    (hashFn : String → String) (workspacePath : String) :
    (∀ names, readdirFn (getCapsulesRootDir hashFn workspacePath) = Except.ok names →
      IsolatorMain.list readdirFn hashFn workspacePath
        = Except.ok
            { workspace := workspacePath
              capsules := names.map (fun c =>
                pathJoin (getCapsulesRootDir hashFn workspacePath) c) })
    ∧ (∀ e, readdirFn (getCapsulesRootDir hashFn workspacePath) = Except.error e →
        e.code = "ENOENT" →
        IsolatorMain.list readdirFn hashFn workspacePath
          = Except.ok { workspace := workspacePath, capsules := [] })
    ∧ (∀ e, readdirFn (getCapsulesRootDir hashFn workspacePath) = Except.error e →
        e.code ≠ "ENOENT" →
        IsolatorMain.list readdirFn hashFn workspacePath = Except.error e) := by
  refine ⟨?_, ?_, ?_⟩
  · intro names h
    simp [IsolatorMain.list, h]
  · intro e h hcode
    simp [IsolatorMain.list, h, hcode]
  · intro e h hcode
    simp [IsolatorMain.list, h, hcode]

/-- C6 witness: the three branches at concrete directory readers. -/
theorem list_spec_witness :
    IsolatorMain.list (fun _ => Except.ok ["c1"]) (fun s => s) "ws"
      = Except.ok
          { workspace := "ws"
            capsules := [pathJoin (getCapsulesRootDir (fun s => s) "ws") "c1"] }
    ∧ IsolatorMain.list (fun _ => Except.error { code := "ENOENT" }) (fun s => s) "ws"
      = Except.ok { workspace := "ws", capsules := [] }
    ∧ IsolatorMain.list (fun _ => Except.error { code := "EACCES" }) (fun s => s) "ws"
      = Except.error { code := "EACCES" } :=
  ⟨(list_spec (fun _ => Except.ok ["c1"]) (fun s => s) "ws").1 ["c1"] rfl,
   (list_spec (fun _ => Except.error { code := "ENOENT" }) (fun s => s) "ws").2.1
     { code := "ENOENT" } rfl rfl,
   (list_spec (fun _ => Except.error { code := "EACCES" }) (fun s => s) "ws").2.2
     { code := "EACCES" } rfl (by decide)⟩

/-- C7: the isolation root path is a deterministic pure function of the base
directory, formed by joining the capsules base directory with a hash of the
base directory. -/
theorem getCapsulesRootDir_deterministic (hashFn : String → String)
    (baseDir1 baseDir2 : String) (h : baseDir1 = baseDir2) :
    getCapsulesRootDir hashFn baseDir1 = getCapsulesRootDir hashFn baseDir2
    ∧ getCapsulesRootDir hashFn baseDir1
        = pathJoin CAPSULES_BASE_DIR (hashFn baseDir1) :=
  ⟨by rw [h], rfl⟩

/-- C7 witness: two invocations on the same base directory coincide. -/
theorem getCapsulesRootDir_deterministic_witness :
    getCapsulesRootDir (fun s => s) "ws" = getCapsulesRootDir (fun s => s) "ws"
    ∧ getCapsulesRootDir (fun s => s) "ws"
        = pathJoin CAPSULES_BASE_DIR ((fun s : String => s) "ws") :=
  getCapsulesRootDir_deterministic (fun s => s) "ws" "ws" rfl

/-- C9: during the write phase, a component with no matching capsule is
skipped — no write effect carries its id — without failing the run, while
every component whose id has a matching capsule gets exactly its write
effect into that capsule. -/
theorem writeComponentsInCapsules_spec (components : List Component)
    (capsuleList : List Capsule) (writtenManifest : Component → Manifest) :
    (∀ comp ∈ components,
        capsuleList.find? (fun capsule => capsule.component.id == comp.id) = none →
        ∀ e ∈ writeComponentsEffects components capsuleList writtenManifest,
          effectWriteId e ≠ some comp.id)
    ∧ (∀ comp ∈ components, ∀ capsule,
        capsuleList.find? (fun capsule => capsule.component.id == comp.id)
          = some capsule →
        Effect.writeComponent comp.id (pathJoin capsule.path PACKAGE_JSON)
            (writtenManifest comp)
          ∈ writeComponentsEffects components capsuleList writtenManifest) := by
  constructor
  · intro comp _ hnone e he hid
    obtain ⟨comp', _, hsome⟩ := List.mem_filterMap.mp he
    obtain ⟨capsule, hfind, rfl⟩ := Option.map_eq_some'.mp hsome
    have hid' : comp'.id = comp.id := by simpa [effectWriteId] using hid
    rw [hid'] at hfind
    rw [hnone] at hfind
    exact Option.noConfusion hfind
  · intro comp hcomp capsule hfind
    exact List.mem_filterMap.mpr ⟨comp, hcomp, by rw [hfind]; rfl⟩

/-- C9 witness: a two-component batch where only the first has a capsule:
the first is written into its capsule, no effect carries the second's id. -/
theorem writeComponentsInCapsules_spec_witness :
    Effect.writeComponent exId (pathJoin exCapsulePath PACKAGE_JSON) (exWritten exComp)
      ∈ writeComponentsEffects [exComp, exCompB] [exCapsule] exWritten
    ∧ effectWriteId (Effect.writeComponent exId (pathJoin exCapsulePath PACKAGE_JSON)
        (exWritten exComp)) ≠ some exIdB :=
  ⟨(writeComponentsInCapsules_spec [exComp, exCompB] [exCapsule] exWritten).2
      exComp (by decide) exCapsule (by decide),
   (writeComponentsInCapsules_spec [exComp, exCompB] [exCapsule] exWritten).1
      exCompB (by decide) (by decide)
      (Effect.writeComponent exId (pathJoin exCapsulePath PACKAGE_JSON)
        (exWritten exComp))
      ((writeComponentsInCapsules_spec [exComp, exCompB] [exCapsule] exWritten).2
        exComp (by decide) exCapsule (by decide))⟩

/-- C10: after marking an environment as installed, `isEnvironmentInstalled`
on the same directory returns true (the sentinel file
`.bit_env_has_installed` is written and exactly its existence is checked);
for a directory where the sentinel was never created it returns false. -/
theorem environment_sentinel (disk : FileDisk) (dir : String) :
    Environment.isEnvironmentInstalled
        (Environment.markEnvironmentAsInstalled disk dir) dir = true
    ∧ (getAssoc disk (pathJoin dir ENV_IS_INSTALLED_FILENAME) = none →
        Environment.isEnvironmentInstalled disk dir = false) := by
  constructor
  · simp [Environment.isEnvironmentInstalled, Environment.markEnvironmentAsInstalled,
      getAssoc_setAssoc_self]
  · intro h
    simp [Environment.isEnvironmentInstalled, h]

/-- C10 witness: on the empty disk, marking then checking gives true, and
checking without marking gives false. -/
theorem environment_sentinel_witness :
    Environment.isEnvironmentInstalled
        (Environment.markEnvironmentAsInstalled [] "d") "d" = true
    ∧ Environment.isEnvironmentInstalled ([] : FileDisk) "d" = false :=
  ⟨(environment_sentinel [] "d").1, (environment_sentinel [] "d").2 rfl⟩

/-- C2: only capsules whose manifest diff reported changed = true are passed
to the per-capsule dependency-symlink relink step of the linking phase —
capsules with no previous manifest count as changed — capsules with
unchanged dependency sections are excluded from it, and relinking an
already-correct link is a no-op, never an error. -/
theorem linkInCapsules_only_changed (data : List CapsulePackageJsonData)
    (capsulesDir : String) :
    (∀ c : Capsule, c ∈ getCapsulesWithModifiedPackageJson data ↔
      ∃ d ∈ data, wereDependenciesInPackageJsonChanged d = true ∧ d.capsule = c)
    ∧ (∀ d ∈ data, d.previousPackageJson = none →
        d.capsule ∈ getCapsulesWithModifiedPackageJson data)
    ∧ (linkEffects capsulesDir data)[2]?
        = some (Effect.symlinkDeps
            ((getCapsulesWithModifiedPackageJson data).map (fun c => c.path)))
    ∧ (∀ (links : Links) (src tgt : String), lookupLink links src = some tgt →
        setLink links src tgt = links) := by
  refine ⟨?_, ?_, rfl, ?_⟩
  · intro c
    simp only [getCapsulesWithModifiedPackageJson, List.mem_map, List.mem_filter]
    constructor
    · rintro ⟨d, ⟨hd, hw⟩, hc⟩
      exact ⟨d, hd, hw, hc⟩
    · rintro ⟨d, hd, hw, hc⟩
      exact ⟨d, ⟨hd, hw⟩, hc⟩
  · intro d hd hnone
    have hw : wereDependenciesInPackageJsonChanged d = true := by
      simp [wereDependenciesInPackageJsonChanged, hnone]
    exact List.mem_map.mpr ⟨d, List.mem_filter.mpr ⟨hd, hw⟩, rfl⟩
  · intro links src tgt h
    exact setAssoc_eq_of_getAssoc links src tgt h

/-- C2 witness: a newly created capsule (no previous manifest) is in the
relink set, and relinking an already-correct link leaves it unchanged. -/
theorem linkInCapsules_only_changed_witness :
    exCapsule ∈ getCapsulesWithModifiedPackageJson
        [{ capsule := exCapsule, currentPackageJson := some exCurrent,
           previousPackageJson := none }]
    ∧ setLink [("l", "t")] "l" "t" = [("l", "t")] :=
  ⟨(linkInCapsules_only_changed
      [{ capsule := exCapsule, currentPackageJson := some exCurrent,
         previousPackageJson := none }] "x").2.1
      { capsule := exCapsule, currentPackageJson := some exCurrent,
        previousPackageJson := none } (by decide) rfl,
   (linkInCapsules_only_changed [] "x").2.2.2 [("l", "t")] "l" "t" rfl⟩

/-- C4 witness: an absent previous manifest is reported as changed. -/
theorem wereDependenciesInPackageJsonChanged_iff_witness :
    wereDependenciesInPackageJsonChanged
      { capsule := exCapsule, currentPackageJson := some exCurrent,
        previousPackageJson := none } = true :=
  (wereDependenciesInPackageJsonChanged_iff
    { capsule := exCapsule, currentPackageJson := some exCurrent,
      previousPackageJson := none }).mpr (Or.inl rfl)

/-- C5 witness: one capsule over the empty disk: one entry, null previous. -/
theorem getCapsulesPreviousPackageJson_total_witness :
    ((getCapsulesPreviousPackageJson [] (fun _ => none) [exCapsule]).map
        (fun d => d.capsule) = [exCapsule])
    ∧ ({ capsule := exCapsule, currentPackageJson := none,
          previousPackageJson := none } : CapsulePackageJsonData).previousPackageJson
        = none :=
  ⟨(getCapsulesPreviousPackageJson_total [] (fun _ => none) [exCapsule]).1,
   ((getCapsulesPreviousPackageJson_total [] (fun _ => none) [exCapsule]).2.2
      { capsule := exCapsule, currentPackageJson := none, previousPackageJson := none }
      (by decide)).1 rfl⟩

set_option maxRecDepth 16384 in
/-- C8 counterexample: a run with `getExistingAsIs = true` but also
`emptyRootDir = true` deletes a pre-existing manifest under the isolation
root — the wipe happens before the `getExistingAsIs` short-circuit — so it
is not true that every `getExistingAsIs` run changes nothing beyond
directory creation. -/
theorem getExistingAsIs_cex :
    exOptsBoth.getExistingAsIs = true
    ∧ readManifest exDisk exManifestPath = some exPrev
    ∧ readManifest (applyEffects exDisk
        (createCapsulesTrace (fun s => s) exOptsBoth [exComp] exDisk exWritten).2)
        exManifestPath = none := by
  refine ⟨rfl, by decide, by decide⟩

/-- C8 (amended): with `getExistingAsIs = true`, the capsule list is
returned immediately after capsule-directory creation — the snapshot,
write, install, link and final-rewrite phases are all skipped — and when
`emptyRootDir` is not also set, no manifest content on disk changes. -/
theorem getExistingAsIs_spec (hashFn : String → String)
    (opts : IsolateComponentsOptions) (components : List Component)
    (disk0 : ManifestDisk) (writtenManifest : Component → Manifest)
    (h1 : opts.getExistingAsIs = true) (h2 : opts.emptyRootDir = false) :
    createCapsulesTrace hashFn opts components disk0 writtenManifest
      = (pipelineCapsules hashFn opts components,
         (pipelineCapsules hashFn opts components).map
           (fun c => Effect.createCapsuleDir c.path))
    ∧ applyEffects disk0
        (createCapsulesTrace hashFn opts components disk0 writtenManifest).2
      = disk0 := by
  have htrace : createCapsulesTrace hashFn opts components disk0 writtenManifest
      = (pipelineCapsules hashFn opts components,
         (pipelineCapsules hashFn opts components).map
           (fun c => Effect.createCapsuleDir c.path)) := by
    simp [createCapsulesTrace, h1, pipelinePreEffects, h2]
  refine ⟨htrace, ?_⟩
  rw [htrace]
  exact applyEffects_createDirs (pipelineCapsules hashFn opts components) disk0

/-- C8 witness: a concrete `getExistingAsIs` run without `emptyRootDir`
leaves the disk unchanged. -/
theorem getExistingAsIs_spec_witness :
    exOptsAsIs.getExistingAsIs = true
    ∧ exOptsAsIs.emptyRootDir = false
    ∧ applyEffects exDisk
        (createCapsulesTrace (fun s => s) exOptsAsIs [exComp] exDisk exWritten).2
      = exDisk :=
  ⟨rfl, rfl,
   (getExistingAsIs_spec (fun s => s) exOptsAsIs [exComp] exDisk exWritten rfl rfl).2⟩

set_option maxRecDepth 16384 in
/-- C1 counterexample: a full run over one capsule whose manifest diff
reports changed = false still gets its final manifest rewritten — the
final rewrite loop runs over every snapshot entry — and its on-disk
manifest afterwards differs from what the write phase produced. -/
theorem finalRewrite_cex :
    ((pipelineData (fun s => s) exOpts [exComp] exDisk exWritten).map
        wereDependenciesInPackageJsonChanged = [false])
    ∧ Effect.writeManifest exManifestPath exCurrent
        ∈ (createCapsulesTrace (fun s => s) exOpts [exComp] exDisk exWritten).2
    ∧ readManifest (applyEffects exDisk
        (createCapsulesTrace (fun s => s) exOpts [exComp] exDisk exWritten).2)
        exManifestPath = some exCurrent
    ∧ exCurrent ≠ exWritten exComp := by
  refine ⟨by decide, by decide, by decide, by decide⟩

/-- C1 (amended): at the end of a full (non-short-circuited) run, the final
manifest with the now-resolved dependency versions is rewritten for every
capsule in the snapshot list, regardless of whether its manifest diff
flagged it as changed: the `writeManifest` effects of the trace are exactly
one rewrite per snapshot entry. -/
theorem finalRewrite_spec (hashFn : String → String)
    (opts : IsolateComponentsOptions) (components : List Component)
    (disk0 : ManifestDisk) (writtenManifest : Component → Manifest)
    (h1 : opts.getExistingAsIs = false)
    (h2 : (opts.skipIfExists &&
        (pipelineExistingCapsules hashFn opts components disk0).length
          == (pipelineCapsules hashFn opts components).length) = false) :
    ((createCapsulesTrace hashFn opts components disk0 writtenManifest).2.filter
        isWriteManifest)
      = (pipelineData hashFn opts components disk0 writtenManifest).map (fun d =>
          Effect.writeManifest (pathJoin d.capsule.path PACKAGE_JSON)
            (d.currentPackageJson.getD [])) := by
  rw [createCapsulesTrace_full hashFn opts components disk0 writtenManifest h1 h2]
  simp [List.filter_append, filter_isWriteManifest_preEffects,
    filter_isWriteManifest_createDirs, filter_isWriteManifest_writeEffects,
    filter_isWriteManifest_installLink, filter_isWriteManifest_rewrites]

set_option maxRecDepth 16384 in
/-- C1 witness: the concrete full run of the counterexample scenario has
exactly the one final rewrite its snapshot list prescribes. -/
theorem finalRewrite_spec_witness :
    exOpts.getExistingAsIs = false
    ∧ ((createCapsulesTrace (fun s => s) exOpts [exComp] exDisk exWritten).2.filter
        isWriteManifest)
      = (pipelineData (fun s => s) exOpts [exComp] exDisk exWritten).map (fun d =>
          Effect.writeManifest (pathJoin d.capsule.path PACKAGE_JSON)
            (d.currentPackageJson.getD [])) :=
  ⟨rfl,
   finalRewrite_spec (fun s => s) exOpts [exComp] exDisk exWritten rfl (by decide)⟩
